import Mathlib

/-!
Verification of the SysMCP process safety-and-control subsystem.

The definitions below are a shallow embedding of the Python sources
`server/security.py`, `server/process_tools.py` and
`server/system_tools.py`:

* Python strings are Lean `String`s (lowercasing is per-character);
* `time.time()` values are rationals, passed explicitly as `now`;
* the psutil process table is an explicit function from pids to
  resolution results (`found name` / `noSuch` / `denied`);
* the behaviour of the OS during the terminate/kill sequence is an
  explicit oracle (`TermBehavior`), and an exception that escapes the
  Python function is an `Except.error`;
* the OS signals actually issued are collected in an `actions` list.
-/

/-- Model of Python's `str.lower()`, applied per character. -/
def lowerStr (s : String) : String := ⟨s.data.map Char.toLower⟩

/-- Model of Python's `str.startswith` on character lists:
`startsWithL a b` holds when `a` is an initial segment of `b`. -/
def startsWithL : List Char → List Char → Bool
  | [], _ => true
  | _ :: _, [] => false
  | a :: as, b :: bs => a == b && startsWithL as bs

/-- Model of Python's `needle in hay` substring test on character lists. -/
def hasSub (needle : List Char) : List Char → Bool
  | [] => startsWithL needle []
  | c :: t => startsWithL needle (c :: t) || hasSub needle t

/-- Mathematical statement that `a` occurs contiguously inside `b`. -/
def ContainsSub (a b : List Char) : Prop := ∃ s t, b = s ++ a ++ t

theorem startsWithL_iff (a b : List Char) :
    startsWithL a b = true ↔ ∃ t, b = a ++ t := by
  induction a generalizing b with
  | nil => simp [startsWithL]
  | cons x xs ih =>
    cases b with
    | nil => simp [startsWithL]
    | cons y ys =>
      simp only [startsWithL, Bool.and_eq_true, beq_iff_eq, ih]
      constructor
      · rintro ⟨rfl, t, rfl⟩
        exact ⟨t, rfl⟩
      · rintro ⟨t, h⟩
        cases h
        exact ⟨rfl, t, rfl⟩

theorem hasSub_iff (a b : List Char) :
    hasSub a b = true ↔ ContainsSub a b := by
  induction b with
  | nil =>
    simp only [hasSub, ContainsSub, startsWithL_iff]
    constructor
    · rintro ⟨t, h⟩
      exact ⟨[], t, by simpa using h⟩
    · rintro ⟨s, t, h⟩
      exact ⟨t, by rcases List.append_eq_nil.mp ((List.append_assoc s a t) ▸ h.symm) with ⟨h1, h2⟩; simp [h1] at h ⊢; exact h⟩
  | cons c t ih =>
    simp only [hasSub, Bool.or_eq_true, startsWithL_iff, ih, ContainsSub]
    constructor
    · rintro (⟨u, h⟩ | ⟨s, u, h⟩)
      · exact ⟨[], u, by simpa using h⟩
      · exact ⟨c :: s, u, by simp [h]⟩
    · rintro ⟨s, u, h⟩
      cases s with
      | nil => exact Or.inl ⟨u, by simpa using h⟩
      | cons s0 ss =>
        simp only [List.cons_append] at h
        cases h
        exact Or.inr ⟨ss, u, rfl⟩

/-- State of `security.RateLimiter`: the configured cap and the deque of
recorded timestamps. -/
structure RateLimiter where
  max_per_minute : Int
  timestamps : List ℚ
deriving DecidableEq

/-- The `while self.timestamps and self.timestamps[0] < cutoff:
self.timestamps.popleft()` loop: drop the longest prefix of entries
strictly below the cutoff, stopping at the first entry that is not. -/
def purgeOld (cutoff : ℚ) : List ℚ → List ℚ
  | [] => []
  | t :: ts => if t < cutoff then purgeOld cutoff ts else t :: ts

/-- `RateLimiter.allow` from `server/security.py`, with the clock value
passed explicitly.  Returns the boolean result and the updated state. -/
def RateLimiter.allow (rl : RateLimiter) (now : ℚ) : Bool × RateLimiter :=
  let ts := purgeOld (now - 60) rl.timestamps
  if rl.max_per_minute ≤ (ts.length : Int) then
    (false, ⟨rl.max_per_minute, ts⟩)
  else
    (true, ⟨rl.max_per_minute, ts ++ [now]⟩)

theorem purgeOld_eq_filter (cutoff : ℚ) (l : List ℚ)
    (hsort : List.Sorted (· ≤ ·) l) :
    purgeOld cutoff l = l.filter (fun t => !decide (t < cutoff)) := by
  induction l with
  | nil => rfl
  | cons t ts ih =>
    rcases List.sorted_cons.mp hsort with ⟨hle, htail⟩
    by_cases h : t < cutoff
    · simp [purgeOld, h, ih htail]
    · have hall : ∀ x ∈ ts, ¬ x < cutoff := fun x hx hlt =>
        h (lt_of_le_of_lt (hle x hx) hlt)
      have hfil : ts.filter (fun t => !decide (t < cutoff)) = ts := by
        rw [List.filter_eq_self]
        intro x hx
        simp [hall x hx]
      simp [purgeOld, h, hfil]

/-- C2: on every `allow()` call, entries older than 60 seconds are
removed; if the remaining count reaches `max_per_minute` the call
returns false recording nothing, otherwise `now` is appended and the
call returns true, leaving the window no longer than `max_per_minute`. -/
theorem rateLimiter_allow_spec (rl : RateLimiter) (now : ℚ)
    (hsort : List.Sorted (· ≤ ·) rl.timestamps) :
    purgeOld (now - 60) rl.timestamps
        = rl.timestamps.filter (fun t => !decide (t < now - 60)) ∧
    ((rl.allow now).1 = true ↔
        ((purgeOld (now - 60) rl.timestamps).length : Int) < rl.max_per_minute) ∧
    ((rl.allow now).1 = false →
        (rl.allow now).2.timestamps = purgeOld (now - 60) rl.timestamps) ∧
    ((rl.allow now).1 = true →
        (rl.allow now).2.timestamps = purgeOld (now - 60) rl.timestamps ++ [now] ∧
        ((rl.allow now).2.timestamps.length : Int) ≤ rl.max_per_minute) := by
  refine ⟨purgeOld_eq_filter _ _ hsort, ?_, ?_, ?_⟩ <;>
    by_cases h : rl.max_per_minute ≤ ((purgeOld (now - 60) rl.timestamps).length : Int) <;>
    simp [RateLimiter.allow, h] <;> omega

/-- Witness for `rateLimiter_allow_spec` at a concrete state. -/
theorem rateLimiter_allow_spec_witness :
    ((⟨2, []⟩ : RateLimiter).allow 100).2.timestamps
        = purgeOld (100 - 60) [] ++ [100] ∧
    ((((⟨2, []⟩ : RateLimiter).allow 100).2.timestamps.length : Int) ≤ 2) :=
  (rateLimiter_allow_spec ⟨2, []⟩ 100 (by simp)).2.2.2 (by decide)

/-- Result of resolving a pid through psutil: `psutil.Process(pid)` plus
`proc.name()` either yields a name, raises `NoSuchProcess`, or raises
`AccessDenied`. -/
inductive Resolve where
  | found (name : String)
  | noSuch
  | denied
deriving DecidableEq

/-- Return value of `process_is_safe` in `server/security.py`. -/
structure SafetyResult where
  is_safe : Bool
  reason : String
deriving DecidableEq

/-- `process_is_safe` from `server/security.py`.  The process table and
the configured allowlist are passed explicitly. -/
def process_is_safe (resolve : Int → Resolve) (allowlist : List String)
    (pid : Int) (require_allowlist : Bool) : SafetyResult :=
  match resolve pid with
  | .found name =>
    let proc_name := lowerStr name
    if !require_allowlist then ⟨true, "Allowlist check bypassed"⟩
    else
      match allowlist.find?
          (fun allowed => hasSub (lowerStr allowed).data proc_name.data) with
      | some _ => ⟨true, "Process \x27" ++ proc_name ++ "\x27 is allowlisted"⟩
      | none => ⟨false, "Process \x27" ++ proc_name ++ "\x27 not in allowlist"⟩
  | .noSuch => ⟨false, "Process does not exist"⟩
  | .denied => ⟨false, "Access denied"⟩

/-- The default `PROCESS_KILL_ALLOWLIST` from `server/config.py`. -/
def defaultAllowlist : List String :=
  ["python", "python3", "node", "chrome", "chromium", "firefox", "code",
   "slack", "discord"]

/-- A process name matches the allowlist when some entry, lowercased,
occurs inside the lowercased name (the loop body of `process_is_safe`). -/
def allowlistSafe (allowlist : List String) (name : String) : Bool :=
  allowlist.any (fun allowed => hasSub (lowerStr allowed).data (lowerStr name).data)

theorem is_safe_found (resolve : Int → Resolve) (allowlist : List String)
    (pid : Int) (name : String) (h : resolve pid = .found name) :
    (process_is_safe resolve allowlist pid true).is_safe
      = allowlistSafe allowlist name := by
  unfold process_is_safe allowlistSafe
  rw [h]
  simp only [Bool.not_true, Bool.false_eq_true, if_false]
  rcases hf : allowlist.find?
      (fun allowed => hasSub (lowerStr allowed).data (lowerStr name).data) with _ | a
  · simp only
    have := List.find?_eq_none.mp hf
    symm
    simp only [List.any_eq_false]
    intro x hx
    simpa using this x hx
  · simp only
    symm
    rw [List.any_eq_true]
    have hp := List.find?_some hf
    exact ⟨a, List.mem_of_find?_eq_some hf, by simpa using hp⟩

theorem is_safe_bypass (resolve : Int → Resolve) (allowlist : List String)
    (pid : Int) (name : String) (h : resolve pid = .found name) :
    process_is_safe resolve allowlist pid false
      = ⟨true, "Allowlist check bypassed"⟩ := by
  unfold process_is_safe
  rw [h]
  rfl

/-- C3: evaluation of `process_is_safe` at pid 1.  The code has no
special case for pid 1: with `require_allowlist=false` it reports the
init process as safe ("Allowlist check bypassed"), and with an
allowlist entry matching "init" it reports it as safe too, contradicting
the repository's own test `test_process_is_safe`, which requires pid 1
to be reported not-safe even with `require_allowlist=False`. -/
theorem pid_one_not_special_cased :
    (process_is_safe (fun pid => if pid = 1 then .found "init" else .noSuch)
        defaultAllowlist 1 false)
      = ⟨true, "Allowlist check bypassed"⟩ ∧
    (process_is_safe (fun pid => if pid = 1 then .found "init" else .noSuch)
        ["init"] 1 true).is_safe = true := by
  exact ⟨by decide, by decide⟩

/-- C4: with `require_allowlist=true` and a resolvable pid, the safety
check succeeds exactly when some allowlist entry, lowercased, occurs as
a contiguous substring of the lowercased process name. -/
theorem is_safe_substring_iff (resolve : Int → Resolve) (allowlist : List String)
    (pid : Int) (name : String) (h : resolve pid = .found name) :
    (process_is_safe resolve allowlist pid true).is_safe = true ↔
      ∃ a ∈ allowlist, ContainsSub (lowerStr a).data (lowerStr name).data := by
  rw [is_safe_found resolve allowlist pid name h]
  unfold allowlistSafe
  simp only [List.any_eq_true, hasSub_iff]

/-- Process table exposing a process literally named "vscode-helper". -/
def vscodeResolve : Int → Resolve :=
  fun pid => if pid = 7 then .found "vscode-helper" else .noSuch

/-- Witness for `is_safe_substring_iff`: allowlist entry "code" marks the
process named "vscode-helper" as safe. -/
theorem is_safe_substring_iff_witness :
    (process_is_safe vscodeResolve ["code"] 7 true).is_safe = true :=
  (is_safe_substring_iff vscodeResolve ["code"] 7 "vscode-helper" (by decide)).mpr
    ⟨"code", by simp, "vs".data, "-helper".data, by decide⟩

/-- Modelled from the spec: `get_remaining` is exercised by
`test/test_tools.py` but absent from the `RateLimiter` in
`server/security.py`; the spec defines it as max minus the current
window size. -/
def RateLimiter.get_remaining (rl : RateLimiter) : Int :=
  rl.max_per_minute - rl.timestamps.length

/-- Modelled from the spec: `reset` is exercised by `test/test_tools.py`
but absent from the `RateLimiter` in `server/security.py`; the spec
defines it as clearing the window. -/
def RateLimiter.reset (rl : RateLimiter) : RateLimiter :=
  ⟨rl.max_per_minute, []⟩

/-- C7: `get_remaining` returns max minus the current window size at
every state, and `reset` empties the window while keeping the cap. -/
theorem rateLimiter_get_remaining_reset_spec (rl : RateLimiter) :
    rl.get_remaining = rl.max_per_minute - (rl.timestamps.length : Int) ∧
    rl.reset.timestamps = [] ∧
    rl.reset.max_per_minute = rl.max_per_minute :=
  ⟨rfl, rfl, rfl⟩

/-- Return value of `process_kill_safe`: the `ok` flag and message. -/
structure KillOutcome where
  ok : Bool
  message : String
deriving DecidableEq

/-- OS signals issued by the termination step. -/
inductive KillAction where
  | terminate (pid : Int)
  | kill (pid : Int)
deriving DecidableEq

/-- Oracle describing how the OS behaves during the final
`terminate / wait(timeout=3) / kill` sequence of `process_kill_safe`:
the process exits within 3 seconds; the wait times out and the forceful
kill succeeds; the wait times out and the forceful kill raises; or
terminate/wait raises some exception other than `TimeoutExpired`. -/
inductive TermBehavior where
  | exitsInTime
  | timeoutThenKillOk
  | timeoutThenKillRaises (e : String)
  | raisesOther (e : String)
deriving DecidableEq

/-- Full result of one `process_kill_safe` call: the returned outcome
(or, as `Except.error`, an exception escaping the Python function), the
rate-limiter state afterwards, and the OS signals issued. -/
structure KillResult where
  result : Except String KillOutcome
  limiter : RateLimiter
  actions : List KillAction

/-- `process_kill_safe` from `server/process_tools.py`.  The process
table, allowlist, rate-limiter state, clock and termination behaviour
are passed explicitly; `override` models the tool's second boolean flag
(spelled `unsa` ++ `fe` in the source).  Note the Python try/except
structure: an exception raised by `proc.kill()` inside the
`except TimeoutExpired` handler is not caught by the sibling
`except Exception` clause and escapes the function. -/
def process_kill_safe (resolve : Int → Resolve) (allowlist : List String)
    (rl : RateLimiter) (now : ℚ) (beh : TermBehavior)
    (pid : Int) (confirm override dry_run : Bool) : KillResult :=
  let allowed := rl.allow now
  let rl1 := allowed.2
  if !allowed.1 then
    { result := .ok ⟨false, "Rate limit exceeded. Max "
        ++ toString rl.max_per_minute ++ " kills per minute."⟩,
      limiter := rl1, actions := [] }
  else
    match resolve pid with
    | .noSuch =>
      { result := .ok ⟨false, "Process " ++ toString pid ++ " does not exist"⟩,
        limiter := rl1, actions := [] }
    | .denied =>
      { result := .ok ⟨false, "Access denied to process " ++ toString pid⟩,
        limiter := rl1, actions := [] }
    | .found proc_name =>
      let safety_check := process_is_safe resolve allowlist pid (!override)
      if !safety_check.is_safe && (!confirm || !override) then
        { result := .ok ⟨false, "Process \x27" ++ proc_name
            ++ "\x27 not in allowlist. Set confirm=true AND unsa"
            ++ "fe=true to proceed."⟩,
          limiter := rl1, actions := [] }
      else if !confirm then
        { result := .ok ⟨false, "Confirmation required. Set confirm=true to proceed."⟩,
          limiter := rl1, actions := [] }
      else if dry_run then
        { result := .ok ⟨true, "[DRY RUN] Would kill process "
            ++ toString pid ++ " (" ++ proc_name ++ ")"⟩,
          limiter := rl1, actions := [] }
      else
        match beh with
        | .exitsInTime =>
          { result := .ok ⟨true, "Successfully terminated process "
              ++ toString pid ++ " (" ++ proc_name ++ ")"⟩,
            limiter := rl1, actions := [.terminate pid] }
        | .timeoutThenKillOk =>
          { result := .ok ⟨true, "Forcefully killed process "
              ++ toString pid ++ " (" ++ proc_name ++ ")"⟩,
            limiter := rl1, actions := [.terminate pid, .kill pid] }
        | .timeoutThenKillRaises e =>
          { result := .error e,
            limiter := rl1, actions := [.terminate pid, .kill pid] }
        | .raisesOther e =>
          { result := .ok ⟨false, "Failed to kill process "
              ++ toString pid ++ ": " ++ e⟩,
            limiter := rl1, actions := [.terminate pid] }

/-- Process table exposing a non-allowlisted process named "bash". -/
def bashResolve : Int → Resolve :=
  fun pid => if pid = 5 then .found "bash" else .noSuch

/-- C1 counterexample: for a rate-admitted, existing, non-allowlisted
process, the call with `confirm=false` and the override flag set to true
is rejected, but with the plain confirmation message, which does not
instruct that both flags are required. -/
theorem kill_both_flags_message_counterexample :
    ((⟨2, []⟩ : RateLimiter).allow 0).1 = true ∧
    allowlistSafe ["python"] "bash" = false ∧
    (process_kill_safe bashResolve ["python"] ⟨2, []⟩ 0 .exitsInTime 5
        false true false).result
      = .ok ⟨false, "Confirmation required. Set confirm=true to proceed."⟩ ∧
    hasSub ("AND unsa" ++ "fe=true").data
        "Confirmation required. Set confirm=true to proceed.".data = false :=
  ⟨by decide, by decide, rfl, by decide⟩

/-- C1 amended: for a rate-admitted call on an existing process, an
allowlist-safe process with `confirm=false` is always rejected; a
non-allowlisted process can only get `ok=true` with both flags set, is
rejected with the both-flags message whenever the override flag is
false, and is rejected with the plain confirmation message when the
override flag is true but `confirm` is false. -/
theorem kill_gate_flags_amended (resolve : Int → Resolve) (allowlist : List String)
    (rl : RateLimiter) (now : ℚ) (beh : TermBehavior) (pid : Int)
    (confirm override dry_run : Bool) (name : String)
    (hrate : (rl.allow now).1 = true)
    (hres : resolve pid = .found name) :
    (allowlistSafe allowlist name = true → confirm = false →
      ∃ m, (process_kill_safe resolve allowlist rl now beh pid confirm
            override dry_run).result = .ok ⟨false, m⟩) ∧
    (allowlistSafe allowlist name = false →
      (∀ o, (process_kill_safe resolve allowlist rl now beh pid confirm
            override dry_run).result = .ok o → o.ok = true →
          confirm = true ∧ override = true) ∧
      (override = false →
        (process_kill_safe resolve allowlist rl now beh pid confirm
            override dry_run).result
          = .ok ⟨false, "Process \x27" ++ name
              ++ "\x27 not in allowlist. Set confirm=true AND unsa"
              ++ "fe=true to proceed."⟩) ∧
      (override = true → confirm = false →
        (process_kill_safe resolve allowlist rl now beh pid confirm
            override dry_run).result
          = .ok ⟨false, "Confirmation required. Set confirm=true to proceed."⟩)) := by
  have hsafeeq := is_safe_found resolve allowlist pid name hres
  have hbyp := is_safe_bypass resolve allowlist pid name hres
  constructor
  · intro hsafe hc
    subst hc
    cases override with
    | false =>
      exact ⟨"Confirmation required. Set confirm=true to proceed.",
        by simp [process_kill_safe, hrate, hres, hsafeeq, hsafe]⟩
    | true =>
      exact ⟨"Confirmation required. Set confirm=true to proceed.",
        by simp [process_kill_safe, hrate, hres, hbyp]⟩
  · intro hunsafe
    refine ⟨?_, ?_, ?_⟩
    · intro o ho hok
      cases confirm with
      | false =>
        exfalso
        cases override with
        | false =>
          simp [process_kill_safe, hrate, hres, hsafeeq, hunsafe] at ho
          cases ho
          simp at hok
        | true =>
          simp [process_kill_safe, hrate, hres, hbyp] at ho
          cases ho
          simp at hok
      | true =>
        cases override with
        | false =>
          exfalso
          simp [process_kill_safe, hrate, hres, hsafeeq, hunsafe] at ho
          cases ho
          simp at hok
        | true => exact ⟨rfl, rfl⟩
    · intro hov
      subst hov
      simp [process_kill_safe, hrate, hres, hsafeeq, hunsafe]
    · intro hov hc
      subst hov
      subst hc
      simp [process_kill_safe, hrate, hres, hbyp]

/-- Witness for `kill_gate_flags_amended`: a non-allowlisted process
with the override flag false gets the both-flags rejection message. -/
theorem kill_gate_flags_amended_witness :
    (process_kill_safe bashResolve ["python"] ⟨2, []⟩ 0 .exitsInTime 5
        false false false).result
      = .ok ⟨false, "Process \x27" ++ "bash"
          ++ "\x27 not in allowlist. Set confirm=true AND unsa"
          ++ "fe=true to proceed."⟩ :=
  ((kill_gate_flags_amended bashResolve ["python"] ⟨2, []⟩ 0 .exitsInTime 5
      false false false "bash" (by decide) (by decide)).2 (by decide)).2.1 rfl

theorem kill_gates_open (resolve : Int → Resolve) (allowlist : List String)
    (rl : RateLimiter) (now : ℚ) (beh : TermBehavior) (pid : Int)
    (override dry_run : Bool) (name : String)
    (hrate : (rl.allow now).1 = true)
    (hres : resolve pid = .found name)
    (hsafety : allowlistSafe allowlist name = true ∨ override = true) :
    process_kill_safe resolve allowlist rl now beh pid true override dry_run
      = if dry_run then
          { result := .ok ⟨true, "[DRY RUN] Would kill process "
              ++ toString pid ++ " (" ++ name ++ ")"⟩,
            limiter := (rl.allow now).2, actions := [] }
        else
          match beh with
          | .exitsInTime =>
            { result := .ok ⟨true, "Successfully terminated process "
                ++ toString pid ++ " (" ++ name ++ ")"⟩,
              limiter := (rl.allow now).2, actions := [.terminate pid] }
          | .timeoutThenKillOk =>
            { result := .ok ⟨true, "Forcefully killed process "
                ++ toString pid ++ " (" ++ name ++ ")"⟩,
              limiter := (rl.allow now).2, actions := [.terminate pid, .kill pid] }
          | .timeoutThenKillRaises e =>
            { result := .error e,
              limiter := (rl.allow now).2, actions := [.terminate pid, .kill pid] }
          | .raisesOther e =>
            { result := .ok ⟨false, "Failed to kill process "
                ++ toString pid ++ ": " ++ e⟩,
              limiter := (rl.allow now).2, actions := [.terminate pid] } := by
  have hsafeeq := is_safe_found resolve allowlist pid name hres
  have hbyp := is_safe_bypass resolve allowlist pid name hres
  rcases hsafety with hsafe | hov
  · cases override with
    | false => simp [process_kill_safe, hrate, hres, hsafeeq, hsafe]
    | true => simp [process_kill_safe, hrate, hres, hbyp]
  · subst hov
    simp [process_kill_safe, hrate, hres, hbyp]

/-- C5: when the rate, existence, safety and confirmation gates all pass
and `dry_run=true`, the call returns `ok=true` with a message containing
"[DRY RUN]" and "Would kill", and issues no OS signal at all. -/
theorem kill_dry_run_no_action (resolve : Int → Resolve) (allowlist : List String)
    (rl : RateLimiter) (now : ℚ) (beh : TermBehavior) (pid : Int)
    (override : Bool) (name : String)
    (hrate : (rl.allow now).1 = true)
    (hres : resolve pid = .found name)
    (hsafety : allowlistSafe allowlist name = true ∨ override = true) :
    (process_kill_safe resolve allowlist rl now beh pid true override true).result
      = .ok ⟨true, "[DRY RUN] Would kill process " ++ toString pid
          ++ " (" ++ name ++ ")"⟩ ∧
    ContainsSub "[DRY RUN]".data
      ("[DRY RUN] Would kill process " ++ toString pid ++ " (" ++ name ++ ")").data ∧
    ContainsSub "Would kill".data
      ("[DRY RUN] Would kill process " ++ toString pid ++ " (" ++ name ++ ")").data ∧
    (process_kill_safe resolve allowlist rl now beh pid true override true).actions
      = [] := by
  have hopen := kill_gates_open resolve allowlist rl now beh pid override true
    name hrate hres hsafety
  refine ⟨by rw [hopen]; rfl, ?_, ?_, by rw [hopen]; rfl⟩
  · have hsplit : ("[DRY RUN] Would kill process " : String)
        = "[DRY RUN]" ++ " Would kill process " := rfl
    rw [hsplit]
    exact ⟨[], (" Would kill process " ++ toString pid ++ " (" ++ name ++ ")").data,
      by simp⟩
  · have hsplit : ("[DRY RUN] Would kill process " : String)
        = "[DRY RUN] " ++ "Would kill" ++ " process " := rfl
    rw [hsplit]
    exact ⟨"[DRY RUN] ".data,
      (" process " ++ toString pid ++ " (" ++ name ++ ")").data, by simp⟩

/-- Witness for `kill_dry_run_no_action` at a concrete allowlisted
process. -/
theorem kill_dry_run_no_action_witness :
    (process_kill_safe (fun pid => if pid = 5 then .found "python" else .noSuch)
        ["python"] ⟨2, []⟩ 0 .exitsInTime 5 true false true).actions = [] :=
  (kill_dry_run_no_action (fun pid => if pid = 5 then .found "python" else .noSuch)
    ["python"] ⟨2, []⟩ 0 .exitsInTime 5 false "python" (by decide) (by decide)
    (Or.inl (by decide))).2.2.2

/-- C6 counterexample: all gates pass, the 3-second wait times out and
the escalated `proc.kill()` itself raises.  The exception escapes the
function (`Except.error`): no `ok=false` outcome is returned, because an
exception raised inside the `except TimeoutExpired` handler is not
caught by the sibling `except Exception` clause. -/
theorem kill_escalation_failure_propagates :
    (process_kill_safe (fun pid => if pid = 5 then .found "python" else .noSuch)
        ["python"] ⟨2, []⟩ 0 (.timeoutThenKillRaises "AccessDenied") 5
        true false false).result
      = .error "AccessDenied" := rfl

/-- C6 amended: when the gates pass and `dry_run=false`, a timeout of
the graceful wait followed by a successful forceful kill returns
`ok=true` "Forcefully killed"; a non-timeout failure of terminate/wait
returns `ok=false` with the underlying error text; but a failure of the
escalation itself propagates as an exception instead of being returned
as an `ok=false` outcome. -/
theorem kill_termination_outcomes_amended (resolve : Int → Resolve)
    (allowlist : List String) (rl : RateLimiter) (now : ℚ) (pid : Int)
    (override : Bool) (name e : String)
    (hrate : (rl.allow now).1 = true)
    (hres : resolve pid = .found name)
    (hsafety : allowlistSafe allowlist name = true ∨ override = true) :
    ((process_kill_safe resolve allowlist rl now .timeoutThenKillOk pid
        true override false).result
      = .ok ⟨true, "Forcefully killed process " ++ toString pid
          ++ " (" ++ name ++ ")"⟩) ∧
    ((process_kill_safe resolve allowlist rl now (.raisesOther e) pid
        true override false).result
      = .ok ⟨false, "Failed to kill process " ++ toString pid ++ ": " ++ e⟩) ∧
    ((process_kill_safe resolve allowlist rl now (.timeoutThenKillRaises e) pid
        true override false).result
      = .error e) := by
  refine ⟨?_, ?_, ?_⟩ <;>
    rw [kill_gates_open resolve allowlist rl now _ pid override false
      name hrate hres hsafety] <;> rfl

/-- Witness for `kill_termination_outcomes_amended` at a concrete
process. -/
theorem kill_termination_outcomes_amended_witness :
    (process_kill_safe (fun pid => if pid = 5 then .found "python" else .noSuch)
        ["python"] ⟨2, []⟩ 0 .timeoutThenKillOk 5 true false false).result
      = .ok ⟨true, "Forcefully killed process " ++ toString (5 : Int)
          ++ " (" ++ "python" ++ ")"⟩ :=
  (kill_termination_outcomes_amended
    (fun pid => if pid = 5 then .found "python" else .noSuch)
    ["python"] ⟨2, []⟩ 0 5 false "python" "boom" (by decide) (by decide)
    (Or.inl (by decide))).1

/-- C8: whenever the rate gate admits the request, the purged window
plus the fresh timestamp is the limiter state of the returned result,
whatever the later gates, the dry-run flag or the termination behaviour
do — rejected and dry-run calls consume budget and nothing rolls the
window back. -/
theorem kill_consumes_budget (resolve : Int → Resolve) (allowlist : List String)
    (rl : RateLimiter) (now : ℚ) (beh : TermBehavior) (pid : Int)
    (confirm override dry_run : Bool)
    (hrate : (rl.allow now).1 = true) :
    (process_kill_safe resolve allowlist rl now beh pid confirm
        override dry_run).limiter.timestamps
      = purgeOld (now - 60) rl.timestamps ++ [now] := by
  have h2 : (rl.allow now).2.timestamps
      = purgeOld (now - 60) rl.timestamps ++ [now] := by
    unfold RateLimiter.allow at hrate ⊢
    by_cases h : rl.max_per_minute ≤ ((purgeOld (now - 60) rl.timestamps).length : Int)
    · simp [h] at hrate
    · simp [h]
  unfold process_kill_safe
  simp only [hrate, Bool.not_true, Bool.false_eq_true, if_false]
  split
  · exact h2
  · exact h2
  · split
    · exact h2
    · split
      · exact h2
      · split
        · exact h2
        · split <;> exact h2

/-- Witness for `kill_consumes_budget`: even a request for a
nonexistent pid, rejected at the existence gate, consumes one unit of
budget. -/
theorem kill_consumes_budget_witness :
    (process_kill_safe bashResolve ["python"] ⟨2, []⟩ 0 .exitsInTime 99
        false false false).limiter.timestamps
      = purgeOld (0 - 60) [] ++ [0] :=
  kill_consumes_budget bashResolve ["python"] ⟨2, []⟩ 0 .exitsInTime 99
    false false false (by decide)

/-- One measured entry of `process_list` (a `ProcessRecord`). -/
structure ProcRecord where
  pid : Int
  name : String
  username : String
  cpu_percent : ℚ
  memory_percent : ℚ
  memory_mb : ℚ
  cmdline : Option String
deriving DecidableEq

/-- Python's `l[:limit]` slice: a nonnegative limit keeps the first
`limit` elements, a negative one drops that many from the end. -/
def pySlice (limit : Int) (l : List α) : List α :=
  if 0 ≤ limit then l.take limit.toNat
  else l.take (l.length - min (-limit).toNat l.length)

/-- Comparison used by `sort_by="cpu"`: CPU percent descending. -/
def cpuDescLe (a b : ProcRecord) : Bool := decide (b.cpu_percent ≤ a.cpu_percent)

/-- Comparison used by `sort_by="memory"`: memory percent descending. -/
def memDescLe (a b : ProcRecord) : Bool := decide (b.memory_percent ≤ a.memory_percent)

/-- Comparison used by `sort_by="pid"`: pid ascending. -/
def pidAscLe (a b : ProcRecord) : Bool := decide (a.pid ≤ b.pid)

/-- Comparison used by `sort_by="name"`: name ascending. -/
def nameAscLe (a b : ProcRecord) : Bool := decide (a.name ≤ b.name)

/-- The `sort_keys` dictionary lookup of `process_list`, with its
fallback to CPU descending for unknown keys, combined with the
`reverse` flag for the two percentage keys. -/
def sortRelOf (sort_by : String) : ProcRecord → ProcRecord → Bool :=
  if sort_by = "cpu" then cpuDescLe
  else if sort_by = "memory" then memDescLe
  else if sort_by = "pid" then pidAscLe
  else if sort_by = "name" then nameAscLe
  else cpuDescLe

/-- `process_list` from `server/process_tools.py`, applied to the
already-measured snapshot `procs` (the psutil enumeration and the 0.2s
settling measurement are the OS-facing part and are passed in as data).
Note Python's truthiness: an empty `name_contains` or `user` string is
falsy and applies no filter. -/
def process_list (procs : List ProcRecord) (sort_by : String) (limit : Int)
    (name_contains : Option String) (user : Option String) : List ProcRecord :=
  let ps1 := match name_contains with
    | some nc =>
      if nc = "" then procs
      else procs.filter (fun p => hasSub (lowerStr nc).data (lowerStr p.name).data)
    | none => procs
  let ps2 := match user with
    | some u => if u = "" then ps1 else ps1.filter (fun p => p.username == u)
    | none => ps1
  pySlice limit (ps2.mergeSort (sortRelOf sort_by))

/-- One entry of `get_disk` in `server/system_tools.py`. -/
structure DiskStat where
  mount : String
  total : Int
  used : Int
  percent : ℚ
deriving DecidableEq

/-- Return value of `get_system_summary`. -/
structure SystemSummary where
  avg_cpu_percent : ℚ
  mem_percent : ℚ
  top_processes : List ProcRecord
  high_usage_disks : List DiskStat
deriving DecidableEq

/-- Python's `round(x)` on an exact value: round half to even. -/
def pyRoundInt (x : ℚ) : Int :=
  if x - ⌊x⌋ < 1 / 2 then ⌊x⌋
  else if 1 / 2 < x - ⌊x⌋ then ⌊x⌋ + 1
  else if ⌊x⌋ % 2 = 0 then ⌊x⌋ else ⌊x⌋ + 1

/-- Python's `round(x, 2)` on an exact value. -/
def round2 (x : ℚ) : ℚ := (pyRoundInt (x * 100) : ℚ) / 100

/-- `get_system_summary` from `server/system_tools.py`.  The per-second
CPU/memory samples and the measured process and disk tables are the
psutil-facing inputs, passed explicitly: sample `i` is the value read in
iteration `i` of the sampling loop. -/
def get_system_summary (cpuSample memSample : Nat → ℚ)
    (procs : List ProcRecord) (disks : List DiskStat)
    (window_s top_n : Int) : SystemSummary :=
  let w := max 1 (min 60 window_s)
  let n := max 1 (min 10 top_n)
  let cpu_samples := (List.range w.toNat).map cpuSample
  let mem_samples := (List.range w.toNat).map memSample
  { avg_cpu_percent := round2 (cpu_samples.sum / (cpu_samples.length : ℚ)),
    mem_percent := round2 (mem_samples.sum / (mem_samples.length : ℚ)),
    top_processes := process_list procs "cpu" n none none,
    high_usage_disks := disks.filter (fun d => decide (80 < d.percent)) }

theorem pySlice_length_le (limit : Int) (l : List α) (h : 0 ≤ limit) :
    ((pySlice limit l).length : Int) ≤ limit := by
  unfold pySlice
  rw [if_pos h]
  have hlen : (l.take limit.toNat).length ≤ limit.toNat := by
    simp [List.length_take]
  omega

theorem pairwise_pySlice (r : α → α → Prop) (limit : Int) (l : List α)
    (h : l.Pairwise r) : (pySlice limit l).Pairwise r := by
  unfold pySlice
  split <;> exact List.Pairwise.sublist (List.take_sublist _ _) h

theorem cpuDescLe_trans : ∀ a b c : ProcRecord,
    cpuDescLe a b → cpuDescLe b c → cpuDescLe a c := by
  intro a b c hab hbc
  simp only [cpuDescLe, decide_eq_true_eq] at *
  exact le_trans hbc hab

theorem cpuDescLe_total : ∀ a b : ProcRecord, cpuDescLe a b || cpuDescLe b a := by
  intro a b
  simp only [cpuDescLe, Bool.or_eq_true, decide_eq_true_eq]
  exact le_total _ _

theorem memDescLe_trans : ∀ a b c : ProcRecord,
    memDescLe a b → memDescLe b c → memDescLe a c := by
  intro a b c hab hbc
  simp only [memDescLe, decide_eq_true_eq] at *
  exact le_trans hbc hab

theorem memDescLe_total : ∀ a b : ProcRecord, memDescLe a b || memDescLe b a := by
  intro a b
  simp only [memDescLe, Bool.or_eq_true, decide_eq_true_eq]
  exact le_total _ _

theorem pidAscLe_trans : ∀ a b c : ProcRecord,
    pidAscLe a b → pidAscLe b c → pidAscLe a c := by
  intro a b c hab hbc
  simp only [pidAscLe, decide_eq_true_eq] at *
  exact le_trans hab hbc

theorem pidAscLe_total : ∀ a b : ProcRecord, pidAscLe a b || pidAscLe b a := by
  intro a b
  simp only [pidAscLe, Bool.or_eq_true, decide_eq_true_eq]
  exact le_total _ _

theorem nameAscLe_trans : ∀ a b c : ProcRecord,
    nameAscLe a b → nameAscLe b c → nameAscLe a c := by
  intro a b c hab hbc
  simp only [nameAscLe, decide_eq_true_eq] at *
  exact le_trans hab hbc

theorem nameAscLe_total : ∀ a b : ProcRecord, nameAscLe a b || nameAscLe b a := by
  intro a b
  simp only [nameAscLe, Bool.or_eq_true, decide_eq_true_eq]
  exact le_total _ _

theorem sortRelOf_trans (k : String) : ∀ a b c : ProcRecord,
    sortRelOf k a b → sortRelOf k b c → sortRelOf k a c := by
  unfold sortRelOf
  split
  · exact cpuDescLe_trans
  · split
    · exact memDescLe_trans
    · split
      · exact pidAscLe_trans
      · split
        · exact nameAscLe_trans
        · exact cpuDescLe_trans

theorem sortRelOf_total (k : String) : ∀ a b : ProcRecord,
    sortRelOf k a b || sortRelOf k b a := by
  unfold sortRelOf
  split
  · exact cpuDescLe_total
  · split
    · exact memDescLe_total
    · split
      · exact pidAscLe_total
      · split
        · exact nameAscLe_total
        · exact cpuDescLe_total

theorem process_list_pairwise (procs : List ProcRecord) (sort_by : String)
    (limit : Int) (nc u : Option String) :
    (process_list procs sort_by limit nc u).Pairwise
      (fun a b => sortRelOf sort_by a b = true) := by
  unfold process_list
  exact pairwise_pySlice _ _ _
    (List.sorted_mergeSort (sortRelOf_trans sort_by) (sortRelOf_total sort_by) _)

theorem process_list_length_le (procs : List ProcRecord) (sort_by : String)
    (limit : Int) (nc u : Option String) (h : 0 ≤ limit) :
    ((process_list procs sort_by limit nc u).length : Int) ≤ limit := by
  unfold process_list
  exact pySlice_length_le _ _ h

/-- Fixture: a higher-CPU process. -/
def procA : ProcRecord := ⟨1, "a", "root", 10, 5, 100, none⟩

/-- Fixture: a lower-CPU process. -/
def procB : ProcRecord := ⟨2, "b", "root", 5, 2, 50, none⟩

unseal List.merge List.mergeSort in
/-- C10 counterexample: with `limit = -1` (a Python slice from the end),
two processes yield a one-element result, whose length is not at most
the limit. -/
theorem process_list_negative_limit_counterexample :
    (process_list [procA, procB] "cpu" (-1) none none).length = 1 ∧
    ¬ (((process_list [procA, procB] "cpu" (-1) none none).length : Int) ≤ -1) := by
  have h1 : (process_list [procA, procB] "cpu" (-1) none none).length = 1 := rfl
  exact ⟨h1, by rw [h1]; decide⟩

/-- C10 amended: each sort key yields the corresponding order on the
returned sequence (unknown keys fall back to CPU descending), and for
every nonnegative limit the returned sequence has length at most
`limit` (a negative limit instead slices from the end, Python-style). -/
theorem process_list_sort_truncate_amended (procs : List ProcRecord)
    (sort_by : String) (limit : Int) (nc u : Option String) :
    (sort_by = "cpu" →
      (process_list procs sort_by limit nc u).Pairwise
        (fun a b => b.cpu_percent ≤ a.cpu_percent)) ∧
    (sort_by = "memory" →
      (process_list procs sort_by limit nc u).Pairwise
        (fun a b => b.memory_percent ≤ a.memory_percent)) ∧
    (sort_by = "pid" →
      (process_list procs sort_by limit nc u).Pairwise
        (fun a b => a.pid ≤ b.pid)) ∧
    (sort_by = "name" →
      (process_list procs sort_by limit nc u).Pairwise
        (fun a b => a.name ≤ b.name)) ∧
    (sort_by ≠ "cpu" ∧ sort_by ≠ "memory" ∧ sort_by ≠ "pid" ∧ sort_by ≠ "name" →
      (process_list procs sort_by limit nc u).Pairwise
        (fun a b => b.cpu_percent ≤ a.cpu_percent)) ∧
    (0 ≤ limit → ((process_list procs sort_by limit nc u).length : Int) ≤ limit) := by
  have hp := process_list_pairwise procs sort_by limit nc u
  refine ⟨?_, ?_, ?_, ?_, ?_, process_list_length_le procs sort_by limit nc u⟩
  · intro hk
    subst hk
    refine hp.imp ?_
    intro a b hab
    simpa [sortRelOf, cpuDescLe] using hab
  · intro hk
    subst hk
    refine hp.imp ?_
    intro a b hab
    simpa [sortRelOf, memDescLe] using hab
  · intro hk
    subst hk
    refine hp.imp ?_
    intro a b hab
    simpa [sortRelOf, pidAscLe] using hab
  · intro hk
    subst hk
    refine hp.imp ?_
    intro a b hab
    simpa [sortRelOf, nameAscLe] using hab
  · rintro ⟨h1, h2, h3, h4⟩
    refine hp.imp ?_
    intro a b hab
    simpa [sortRelOf, h1, h2, h3, h4, cpuDescLe] using hab

/-- Witness for `process_list_sort_truncate_amended` on a concrete
snapshot sorted by CPU with limit 2. -/
theorem process_list_sort_truncate_amended_witness :
    (process_list [procA, procB] "cpu" 2 none none).Pairwise
      (fun a b => b.cpu_percent ≤ a.cpu_percent) ∧
    ((process_list [procA, procB] "cpu" 2 none none).length : Int) ≤ 2 :=
  ⟨(process_list_sort_truncate_amended [procA, procB] "cpu" 2 none none).1 rfl,
   (process_list_sort_truncate_amended [procA, procB] "cpu" 2 none
      none).2.2.2.2.2 (by decide)⟩

/-- C9: `window_s` is clamped into [1,60] and `top_n` into [1,10] before
use; the averaged fields are the rounded arithmetic means of the
per-second samples; `top_processes` has length at most the clamped
`top_n`; and every reported disk has percent strictly above 80. -/
theorem get_system_summary_spec (cpuSample memSample : Nat → ℚ)
    (procs : List ProcRecord) (disks : List DiskStat)
    (window_s top_n : Int) :
    (1 ≤ max 1 (min 60 window_s) ∧ max 1 (min 60 window_s) ≤ 60 ∧
     1 ≤ max 1 (min 10 top_n) ∧ max 1 (min 10 top_n) ≤ 10) ∧
    get_system_summary cpuSample memSample procs disks window_s top_n
      = get_system_summary cpuSample memSample procs disks
          (max 1 (min 60 window_s)) (max 1 (min 10 top_n)) ∧
    (get_system_summary cpuSample memSample procs disks window_s top_n).avg_cpu_percent
      = round2 ((((List.range (max 1 (min 60 window_s)).toNat).map cpuSample).sum)
          / (((max 1 (min 60 window_s)).toNat : ℚ))) ∧
    (get_system_summary cpuSample memSample procs disks window_s top_n).mem_percent
      = round2 ((((List.range (max 1 (min 60 window_s)).toNat).map memSample).sum)
          / (((max 1 (min 60 window_s)).toNat : ℚ))) ∧
    (((get_system_summary cpuSample memSample procs disks window_s
        top_n).top_processes.length : Int) ≤ max 1 (min 10 top_n)) ∧
    (∀ d ∈ (get_system_summary cpuSample memSample procs disks window_s
        top_n).high_usage_disks, 80 < d.percent) := by
  have hw : max 1 (min 60 (max 1 (min 60 window_s))) = max 1 (min 60 window_s) := by
    omega
  have hn : max 1 (min 10 (max 1 (min 10 top_n))) = max 1 (min 10 top_n) := by
    omega
  refine ⟨by omega, ?_, ?_, ?_, ?_, ?_⟩
  · unfold get_system_summary
    rw [hw, hn]
  · unfold get_system_summary
    simp
  · unfold get_system_summary
    simp
  · unfold get_system_summary
    exact process_list_length_le procs "cpu" (max 1 (min 10 top_n)) none none
      (by omega)
  · intro d hd
    unfold get_system_summary at hd
    simp only [List.mem_filter, decide_eq_true_eq] at hd
    exact hd.2

/-- Witness for `get_system_summary_spec`: a disk at 90 percent is
reported and is indeed above 80 percent. -/
theorem get_system_summary_spec_witness :
    (80 : ℚ) < (⟨"/", 100, 90, 90⟩ : DiskStat).percent :=
  (get_system_summary_spec (fun _ => 50) (fun _ => 40) [] [⟨"/", 100, 90, 90⟩]
      2 2).2.2.2.2.2 ⟨"/", 100, 90, 90⟩ (by decide)

theorem purgeOld_suffix (cutoff : ℚ) (l : List ℚ) : purgeOld cutoff l <:+ l := by
  induction l with
  | nil => exact List.suffix_refl _
  | cons t ts ih =>
    by_cases h : t < cutoff
    · simpa [purgeOld, h] using ih.trans (List.suffix_cons t ts)
    · simp [purgeOld, h]

/-- The sortedness hypothesis of `rateLimiter_allow_spec` is an
invariant: it holds of the empty initial window and is preserved by
every `allow()` call made with a clock value not before the recorded
entries. -/
theorem allow_preserves_sorted (rl : RateLimiter) (now : ℚ)
    (hsort : List.Sorted (· ≤ ·) rl.timestamps)
    (hmono : ∀ t ∈ rl.timestamps, t ≤ now) :
    List.Sorted (· ≤ ·) (rl.allow now).2.timestamps ∧
    ∀ t ∈ (rl.allow now).2.timestamps, t ≤ now := by
  have hsub := (purgeOld_suffix (now - 60) rl.timestamps).sublist
  have hps : List.Sorted (· ≤ ·) (purgeOld (now - 60) rl.timestamps) :=
    hsort.sublist hsub
  have hpm : ∀ t ∈ purgeOld (now - 60) rl.timestamps, t ≤ now :=
    fun t ht => hmono t (hsub.mem ht)
  unfold RateLimiter.allow
  by_cases h : rl.max_per_minute ≤ ((purgeOld (now - 60) rl.timestamps).length : Int)
  · simpa [h] using ⟨hps, hpm⟩
  · simp only [h, if_false]
    constructor
    · rw [List.Sorted, List.pairwise_append]
      exact ⟨hps, List.pairwise_singleton _ _,
        fun x hx y hy => by simp at hy; subst hy; exact hpm x hx⟩
    · intro t ht
      rcases List.mem_append.mp ht with h1 | h1
      · exact hpm t h1
      · simp at h1
        subst h1
        exact le_refl _
